import Mathlib

/-!
Verification of the discogs-angular2-app state-composition module and
search-box component (src/client/app/components/search-box/search-box.component.ts,
which bundles the component class and the reducers/selectors module).

The embedding keeps JavaScript semantics explicit:
an `Option` argument models a value that may be `undefined`/`null`;
`JsOpt` distinguishes `undefined` from `null` where the selectors do;
`Except JsError` models expressions that can throw a `TypeError`
(property access or method call on `undefined`).
-/

/-- A YouTube video as referenced by the player slice: the selector code
only touches its `id` field (`current.id`, `v.video.id`). -/
structure Video where
  id : String
deriving DecidableEq

/-- An entry of a playlist video list: the selector code reads `v.video.id`
and returns the whole entry as the next/previous value. -/
structure PlaylistItem where
  video : Video
deriving DecidableEq

/-- A playlist as used by the selectors: `p.id` for filtering and
`current.videos` for the selected video list (which may be absent). -/
structure Playlist where
  id : String
  videos : Option (List PlaylistItem)
deriving DecidableEq

/-- A JavaScript value that can be `undefined`, `null`, or a proper value:
the next/prev record stores `undefined` from out-of-range indexing in its
`next` field and a literal `null` in its `prev` field, so the two falsy
values are kept apart. -/
inductive JsOpt (α : Type) where
  | undef : JsOpt α
  | null : JsOpt α
  | val : α → JsOpt α
deriving DecidableEq

/-- Whether a `JsOpt` holds a proper value (is neither undefined nor null). -/
def JsOpt.isVal : JsOpt α → Bool
  | .val _ => true
  | _ => false

/-- JavaScript array indexing `xs[i]`: a proper element when `i` is in
range, `undefined` otherwise (including negative indices). -/
def jsIndex (xs : List α) (i : Int) : JsOpt α :=
  if i < 0 then JsOpt.undef
  else
    match xs.get? i.toNat with
    | some x => JsOpt.val x
    | none => JsOpt.undef

/-- `Array.prototype.indexOf` for a defined string target: the index of the
first occurrence, or `-1` when the target does not occur. -/
def indexOfAux (t : String) : List String → Int
  | [] => -1
  | s :: rest =>
    if s = t then 0
    else
      let r := indexOfAux t rest
      if r = -1 then -1 else r + 1

/-- `ids.indexOf(target)` where `target` is `current && current.id`: when
`current` is undefined the searched value is `undefined`, which never
equals a string id, so the result is `-1`. -/
def indexOfIds (ids : List String) (target : Option String) : Int :=
  match target with
  | none => -1
  | some t => indexOfAux t ids

/-- The record returned by the next/previous selector: `next` is the
following video (or the first, or `undefined` past an empty list), `prev`
is the preceding video or `null`. -/
structure NextPrev where
  next : JsOpt PlaylistItem
  prev : JsOpt PlaylistItem
deriving DecidableEq

/-- Selector `getSelectedPlaylistVideos`: `current && current.videos`;
absent when the current playlist is absent or its video list is absent. -/
def getSelectedPlaylistVideos (current : Option Playlist) : Option (List PlaylistItem) :=
  match current with
  | none => none
  | some c => c.videos

/-- Projection body of selector `getNextPreviousVideos`: returns `null`
when the video list is falsy; otherwise finds `videos.map(v => v.video.id).indexOf(current && current.id)`
and builds the record with `next = videos[currentIndex + 1]` when
`currentIndex < videos.length - 1`, else `videos[0]`, and
`prev = videos[currentIndex - 1]` when `currentIndex > 0`, else `null`. -/
def getNextPreviousVideos (videos : Option (List PlaylistItem)) (current : Option Video) :
    Option NextPrev :=
  match videos with
  | none => none
  | some vs =>
    let currentIndex : Int := indexOfIds (vs.map (fun v => v.video.id)) (current.map Video.id)
    some
      ⟨ if currentIndex < (vs.length : Int) - 1 then jsIndex vs (currentIndex + 1)
        else jsIndex vs 0,
        if currentIndex > 0 then jsIndex vs (currentIndex - 1)
        else JsOpt.null ⟩

/-- The runtime error class thrown by a property access or method call on
`undefined`/`null`. -/
inductive JsError where
  | typeError : JsError
deriving DecidableEq

/-- Evaluation of `playlists.filter(p => p.id !== current.id)` element by
element: the predicate body reads `current.id`, so the first predicate
call throws a `TypeError` when `current` is undefined; on an empty array
the predicate is never called. -/
def filterOthers (current : Option Playlist) : List Playlist → Except JsError (List Playlist)
  | [] => Except.ok []
  | p :: rest =>
    match current with
    | none => Except.error JsError.typeError
    | some c =>
      match filterOthers (some c) rest with
      | Except.error e => Except.error e
      | Except.ok tail => Except.ok (if p.id != c.id then p :: tail else tail)

/-- Projection body of selector `getPlaylistsForList`:
`playlists.filter(p => p.id !== current.id)`; calling `.filter` on an
undefined playlists slice throws a `TypeError`. -/
def getPlaylistsForList (playlists : Option (List Playlist)) (current : Option Playlist) :
    Except JsError (List Playlist) :=
  match playlists with
  | none => Except.error JsError.typeError
  | some ps => filterOthers current ps

/-- How a class member of an Angular component is exposed: a plain class
field, an `Input()`-decorated binding, or an `Output()`-decorated event. -/
inductive PropBinding where
  | plainField : PropBinding
  | inputBinding : PropBinding
  | outputBinding : PropBinding
deriving DecidableEq

/-- One member of a component class, with its public name and how the
decorators expose it. -/
structure ComponentProp where
  name : String
  binding : PropBinding
deriving DecidableEq

/-- The initializer of the `placeholder` field of `SearchBoxComponent`. -/
def searchBoxPlaceholderInit : String := "Search for a release..."

/-- The members of `SearchBoxComponent` as declared in the source:
`placeholder` is a plain initialized field with no decorator, `searchTerm`
carries `Input()`, and `onSearch` carries `Output()`. -/
def searchBoxProps : List ComponentProp :=
  [ ⟨ "placeholder", PropBinding.plainField ⟩,
    ⟨ "searchTerm", PropBinding.inputBinding ⟩,
    ⟨ "onSearch", PropBinding.outputBinding ⟩ ]

/-- The names of the configuration inputs the component exposes. -/
def searchBoxInputs : List String :=
  (searchBoxProps.filter (fun p => p.binding == PropBinding.inputBinding)).map ComponentProp.name

/-- The names of the output events the component exposes. -/
def searchBoxOutputs : List String :=
  (searchBoxProps.filter (fun p => p.binding == PropBinding.outputBinding)).map ComponentProp.name

/-- The feature keys of the global `State` interface, exactly as declared:
release, videos, player, playlist, collection, wantlist, search, sales,
user, router. -/
inductive FeatureKey where
  | release | videos | player | playlist | collection | wantlist
  | search | sales | user | router
deriving DecidableEq

/-- The keys of the `reducers` map, in declaration order. -/
def featureKeys : List FeatureKey :=
  [ FeatureKey.release, FeatureKey.videos, FeatureKey.player, FeatureKey.playlist,
    FeatureKey.collection, FeatureKey.wantlist, FeatureKey.search, FeatureKey.sales,
    FeatureKey.user, FeatureKey.router ]

/-- Modelled from the spec: the per-feature reducer modules
(`./release`, `./videos`, ..., and the router reducer) are imported by the
reducers module but are not part of the visible source. `run` is the
feature transition function on a possibly undefined slice state, and
`mutates` records the only side effect the spec cares about: whether the
call mutates a defined input slice in place instead of returning a new
value (the mutation `storeFreeze` detects). -/
structure FReducer (σ α : Type) where
  run : Option σ → α → Option σ
  mutates : σ → α → Bool

/-- Global state: one possibly undefined value per declared feature key. -/
abbrev RootState (σ : Type) := FeatureKey → Option σ

/-- The slice of a possibly undefined global state at one key: when the
whole state is undefined (first dispatch) every slice reads as undefined. -/
def sliceAt (st : Option (RootState σ)) (k : FeatureKey) : Option σ :=
  match st with
  | none => none
  | some s => s k

/-- `combineReducers(reducers)` as documented in the source module: routes
the action to every feature reducer with that feature's slice of the
current state and gathers the results under the reducer's key. -/
def combineReducers (rs : FeatureKey → FReducer σ α) (st : Option (RootState σ)) (a : α) :
    RootState σ :=
  fun k => (rs k).run (sliceAt st k) a

/-- Whether any feature reducer mutates its (defined) input slice on this
call; an undefined slice has nothing to mutate. -/
def anyMutation (rs : FeatureKey → FReducer σ α) (st : Option (RootState σ)) (a : α) : Bool :=
  featureKeys.any fun k =>
    match sliceAt st k with
    | none => false
    | some s => (rs k).mutates s a

/-- The error raised by the development-mode mutation guard. -/
inductive StoreError where
  | mutationError : StoreError
deriving DecidableEq

/-- Modelled from the spec and the in-source documentation of
`ngrx-store-freeze`: `storeFreeze` wraps the combined reducer so that when
mutation occurs an exception is thrown; otherwise it behaves as the
combined reducer. `developmentReducer = compose(storeFreeze, combineReducers)(reducers)`. -/
def developmentReducer (rs : FeatureKey → FReducer σ α) (st : Option (RootState σ)) (a : α) :
    Except StoreError (RootState σ) :=
  if anyMutation rs st a then Except.error StoreError.mutationError
  else Except.ok (combineReducers rs st a)

/-- `productionReducer = combineReducers(reducers)`: no guard, a mutation
passes silently and the combined result is returned. -/
def productionReducer (rs : FeatureKey → FReducer σ α) (st : Option (RootState σ)) (a : α) :
    Except StoreError (RootState σ) :=
  Except.ok (combineReducers rs st a)

/-- The exported root `reducer`: reads `environment.production` on every
call (modelled as the per-call argument `production`, since the
`environments/environment` module is not part of the visible source) and
dispatches to the development or the production variant. -/
def reducer (production : Bool) (rs : FeatureKey → FReducer σ α) (st : Option (RootState σ))
    (a : α) : Except StoreError (RootState σ) :=
  if !production then developmentReducer rs st a
  else productionReducer rs st a

/-- Concrete id used by witnesses. -/
def idA : String := "vidA"

/-- Concrete id used by witnesses. -/
def idB : String := "vidB"

/-- Concrete id used by witnesses. -/
def idC : String := "vidC"

/-- Concrete playlist entry A. -/
def itemA : PlaylistItem := ⟨ ⟨ idA ⟩ ⟩

/-- Concrete playlist entry B. -/
def itemB : PlaylistItem := ⟨ ⟨ idB ⟩ ⟩

/-- Concrete playlist entry C. -/
def itemC : PlaylistItem := ⟨ ⟨ idC ⟩ ⟩

/-- Concrete playlist P1. -/
def plA : Playlist := ⟨ "p1", none ⟩

/-- Concrete playlist P2. -/
def plB : Playlist := ⟨ "p2", none ⟩

/-- Concrete playlist P3. -/
def plC : Playlist := ⟨ "p3", none ⟩

/-- A well-behaved concrete reducer family: every feature returns the
initial value `some 0` on an undefined slice and never mutates. -/
def trivialReducers : FeatureKey → FReducer Nat Nat :=
  fun _ => ⟨ fun st _ => some (st.getD 0), fun _ _ => false ⟩

/-- A misbehaving concrete reducer family: every feature mutates its
defined input slice in place. -/
def mutatingReducers : FeatureKey → FReducer Nat Nat :=
  fun _ => ⟨ fun st _ => st, fun _ _ => true ⟩

/-- A fully populated concrete global state. -/
def constState : RootState Nat := fun _ => some 0

/-- Filtering with a defined current playlist never throws: it is the pure
filter keeping the playlists whose id differs from the current id. -/
theorem filterOthers_some (c : Playlist) (ps : List Playlist) :
    filterOthers (some c) ps = Except.ok (ps.filter (fun p => p.id != c.id)) := by
  induction ps with
  | nil => rfl
  | cons p rest ih =>
    simp only [filterOthers, ih, List.filter_cons]

/-- Every declared feature key occurs in the reducers map. -/
theorem featureKeys_complete (k : FeatureKey) : k ∈ featureKeys := by
  cases k <;> simp [featureKeys]

/-- C1 (counterexample): for the one-video list with nothing playing, the
next/previous selector does not return a result with no next video: the
`next` field holds a proper video (the first of the list), refuting the
claim that both fields are empty. -/
theorem nextPrev_undefined_current_has_next :
    (getNextPreviousVideos (some [ itemA ]) none).map (fun r => JsOpt.isVal r.next)
      = some true ∧
    getNextPreviousVideos (some [ itemA ]) none = some ⟨ JsOpt.val itemA, JsOpt.null ⟩ := by
  constructor <;> rfl

/-- C1 (amended): for every non-empty playlist video list, when the
currently playing video is undefined the selector does not raise: it
returns a result whose `prev` is null (no previous video) and whose
`next` is the first video of the list (since `indexOf` yields `-1` and
`-1 + 1 = 0`). -/
theorem nextPrev_undefined_current_first_and_null (v : PlaylistItem) (vs : List PlaylistItem) :
    getNextPreviousVideos (some (v :: vs)) none = some ⟨ JsOpt.val v, JsOpt.null ⟩ := by
  have h1 : (-1 : Int) < ((v :: vs).length : Int) - 1 := by
    simp only [List.length_cons]
    push_cast
    omega
  simp only [getNextPreviousVideos, indexOfIds, Option.map_none']
  rw [if_pos h1, if_neg (by omega : ¬ (-1 : Int) > 0)]
  norm_num [jsIndex]

/-- C10: with a present but empty video list the selector throws nothing
and returns a record whose `next` is undefined (indexing past the empty
list) and whose `prev` is null; and the selector returns null exactly when
the video list itself (in particular the one selected from the current
playlist) is absent. -/
theorem nextPrev_empty_list_and_null_iff :
    (∀ cur : Option Video,
      getNextPreviousVideos (some []) cur = some ⟨ JsOpt.undef, JsOpt.null ⟩) ∧
    (∀ (videos : Option (List PlaylistItem)) (cur : Option Video),
      getNextPreviousVideos videos cur = none ↔ videos = none) ∧
    (∀ (current : Option Playlist) (cur : Option Video),
      getNextPreviousVideos (getSelectedPlaylistVideos current) cur = none ↔
        getSelectedPlaylistVideos current = none) := by
  have h2 : ∀ (videos : Option (List PlaylistItem)) (cur : Option Video),
      getNextPreviousVideos videos cur = none ↔ videos = none := by
    intro videos cur
    cases videos with
    | none => simp [getNextPreviousVideos]
    | some vs => simp [getNextPreviousVideos]
  refine ⟨ ?_, h2, fun current cur => h2 _ _ ⟩
  intro cur
  cases cur with
  | none => rfl
  | some c => rfl

/-- C2 (counterexample): with the playlists slice absent, or with a
non-empty playlists list and the current playlist absent, the combinator
throws a TypeError instead of returning a neutral result. -/
theorem playlistsForList_absent_throws :
    getPlaylistsForList none none = Except.error JsError.typeError ∧
    getPlaylistsForList (some [ plA ]) none = Except.error JsError.typeError := by
  constructor <;> rfl

/-- C2 (amended): the combinator returns the pure filtered list when both
slices are present, and the empty list when the playlists list is empty
(the predicate is never evaluated); but it throws a TypeError when the
playlists slice is absent, and when the current playlist is absent while
the playlists list is non-empty. -/
theorem playlistsForList_guard_behavior :
    (∀ current, getPlaylistsForList none current = Except.error JsError.typeError) ∧
    (∀ (p : Playlist) (ps : List Playlist),
      getPlaylistsForList (some (p :: ps)) none = Except.error JsError.typeError) ∧
    (∀ current, getPlaylistsForList (some []) current = Except.ok []) ∧
    (∀ (ps : List Playlist) (c : Playlist),
      getPlaylistsForList (some ps) (some c)
        = Except.ok (ps.filter (fun p => p.id != c.id))) := by
  refine ⟨ fun current => rfl, fun p ps => rfl, fun current => rfl, fun ps c => ?_ ⟩
  simp [getPlaylistsForList, filterOthers_some]

/-- C3 (counterexample): `placeholder` is not among the component's
declared inputs, and the component does not declare two inputs. -/
theorem searchBox_placeholder_not_input :
    ¬ ( "placeholder" ∈ searchBoxInputs ∧ searchBoxInputs.length = 2 ) := by decide

/-- C3 (amended): the component exposes exactly one configuration input,
the current search term, and exactly one output event carrying the search
term; the placeholder is a plain field fixed by the component to the
string given in its initializer, not externally supplied configuration. -/
theorem searchBox_contract :
    searchBoxInputs = [ "searchTerm" ] ∧
    searchBoxOutputs = [ "onSearch" ] ∧
    (searchBoxProps.filter (fun p => p.name == "placeholder")).map ComponentProp.binding
      = [ PropBinding.plainField ] ∧
    searchBoxPlaceholderInit = "Search for a release..." := by
  refine ⟨ rfl, rfl, rfl, rfl ⟩

/-- Indexing the front of a list extended by one element yields its head,
or the appended element when the front is empty. -/
theorem getq_zero_append (l : List α) (v : α) : (l ++ [v]).get? 0 = some (l.headD v) := by
  cases l <;> rfl

/-- `indexOf` finds an element appended at the back at the original
length, provided the element does not already occur. -/
theorem indexOfAux_append_self (t : String) : ∀ l : List String, t ∉ l →
    indexOfAux t (l ++ [t]) = (l.length : Int) := by
  intro l
  induction l with
  | nil =>
    intro _
    simp [indexOfAux]
  | cons s rest ih =>
    intro h
    have hs : ¬ s = t := fun e => h (by rw [e]; exact List.mem_cons_self t rest)
    have hrest : t ∉ rest := fun hm => h (List.mem_cons_of_mem s hm)
    have hne : ((rest.length : Int)) ≠ -1 := by omega
    have step : indexOfAux t ((s :: rest) ++ [t])
        = if s = t then 0
          else if indexOfAux t (rest ++ [t]) = -1 then -1 else indexOfAux t (rest ++ [t]) + 1 :=
      rfl
    rw [step, if_neg hs, ih hrest, if_neg hne]
    simp only [List.length_cons]
    push_cast
    ring

/-- C4: for a video list `[a, b, c]` with the middle entry playing (its id
distinct from the first id, so `indexOf` locates it at position 1), the
selector returns the following entry as next and the preceding entry as
previous. -/
theorem nextPrev_middle (a b c : PlaylistItem) (h : a.video.id ≠ b.video.id) :
    getNextPreviousVideos (some [ a, b, c ]) (some b.video)
      = some ⟨ JsOpt.val c, JsOpt.val a ⟩ := by
  simp [getNextPreviousVideos, indexOfIds, indexOfAux, jsIndex, h]

/-- C4 (witness): the concrete three-video playlist with B playing yields
next C and previous A. -/
theorem nextPrev_middle_witness :
    getNextPreviousVideos (some [ itemA, itemB, itemC ]) (some itemB.video)
      = some ⟨ JsOpt.val itemC, JsOpt.val itemA ⟩ :=
  nextPrev_middle itemA itemB itemC (by decide)

/-- C5: for `[a, b, c]` with the last entry playing (id distinct from the
two before it), the selector wraps, returning the first entry as next and
the middle entry as previous; in general, whenever the current video is
the first of the list the previous is null, and whenever it is the last
(its id not occurring earlier) the next is the first entry of the list. -/
theorem nextPrev_last_wraps :
    (∀ a b c : PlaylistItem, a.video.id ≠ c.video.id → b.video.id ≠ c.video.id →
      getNextPreviousVideos (some [ a, b, c ]) (some c.video)
        = some ⟨ JsOpt.val a, JsOpt.val b ⟩) ∧
    (∀ (v : PlaylistItem) (vs : List PlaylistItem),
      (getNextPreviousVideos (some (v :: vs)) (some v.video)).map NextPrev.prev
        = some JsOpt.null) ∧
    (∀ (l : List PlaylistItem) (v : PlaylistItem),
      v.video.id ∉ l.map (fun x => x.video.id) →
      (getNextPreviousVideos (some (l ++ [v])) (some v.video)).map NextPrev.next
        = some (JsOpt.val (l.headD v))) := by
  refine ⟨ ?_, ?_, ?_ ⟩
  · intro a b c ha hb
    simp [getNextPreviousVideos, indexOfIds, indexOfAux, jsIndex, ha, hb]
  · intro v vs
    simp [getNextPreviousVideos, indexOfIds, indexOfAux]
  · intro l v h
    have hidx : indexOfIds ((l ++ [v]).map (fun x => x.video.id))
        (some v.video.id) = (l.length : Int) := by
      simp only [indexOfIds, List.map_append, List.map_cons, List.map_nil]
      have := indexOfAux_append_self v.video.id (l.map (fun x => x.video.id)) (by simpa using h)
      simpa [List.length_map] using this
    have hcond : ¬ ((l.length : Int) < ((l ++ [v]).length : Int) - 1) := by
      simp only [List.length_append, List.length_cons, List.length_nil]
      push_cast
      omega
    have hj : jsIndex (l ++ [v]) 0 = JsOpt.val (l.headD v) := by
      have h0 : (l ++ [v]).get? 0 = some (l.headD v) := getq_zero_append l v
      rw [jsIndex, if_neg (by norm_num : ¬ (0 : Int) < 0), Int.toNat_zero, h0]
    simp only [getNextPreviousVideos, hidx, if_neg hcond, hj, Option.map_some']

/-- C5 (witness): the concrete three-video playlist with C playing yields
next A and previous B. -/
theorem nextPrev_last_wraps_witness :
    getNextPreviousVideos (some [ itemA, itemB, itemC ]) (some itemC.video)
      = some ⟨ JsOpt.val itemA, JsOpt.val itemB ⟩ :=
  nextPrev_last_wraps.1 itemA itemB itemC (by decide) (by decide)

/-- C6: for playlists `[p1, p2, p3]` with current `p2` (ids of the others
distinct from its id), the combinator returns `[p1, p3]`; in general, with
both slices present it returns exactly the playlists whose id differs from
the id of the current playlist. -/
theorem playlistsForList_filters_current :
    (∀ p1 p2 p3 : Playlist, p1.id ≠ p2.id → p3.id ≠ p2.id →
      getPlaylistsForList (some [ p1, p2, p3 ]) (some p2) = Except.ok [ p1, p3 ]) ∧
    (∀ (ps : List Playlist) (c : Playlist),
      getPlaylistsForList (some ps) (some c)
        = Except.ok (ps.filter (fun p => p.id != c.id))) := by
  have hg : ∀ (ps : List Playlist) (c : Playlist),
      getPlaylistsForList (some ps) (some c)
        = Except.ok (ps.filter (fun p => p.id != c.id)) := by
    intro ps c
    simp [getPlaylistsForList, filterOthers_some]
  refine ⟨ ?_, hg ⟩
  intro p1 p2 p3 h1 h3
  rw [hg]
  simp [List.filter_cons, h1, h3]

/-- C6 (witness): the concrete playlists P1, P2, P3 with current P2 yield
the other two playlists in order. -/
theorem playlistsForList_filters_current_witness :
    getPlaylistsForList (some [ plA, plB, plC ]) (some plB) = Except.ok [ plA, plC ] :=
  playlistsForList_filters_current.1 plA plB plC (by decide) (by decide)

/-- C7: with no prior state (undefined), for every action and either
environment flag, the root reducer raises nothing and produces a global
state in which every declared feature key is populated, given that each
feature transition function returns a non-undefined initial value when
called with an undefined slice. -/
theorem reducer_initializes_all_keys (σ α : Type) (rs : FeatureKey → FReducer σ α)
    (hinit : ∀ (k : FeatureKey) (a : α), (rs k).run none a ≠ none) (p : Bool) (a : α) :
    reducer p rs none a = Except.ok (combineReducers rs none a) ∧
    ∀ k : FeatureKey, combineReducers rs none a k ≠ none := by
  have hmut : anyMutation rs none a = false := rfl
  constructor
  · cases p
    · simp [reducer, developmentReducer, hmut]
    · simp [reducer, productionReducer]
  · intro k
    exact hinit k a

/-- C7 (witness): the trivial reducer family initializes; in particular
the release key of the produced state is populated. -/
theorem reducer_initializes_all_keys_witness :
    reducer true trivialReducers none 0 = Except.ok (combineReducers trivialReducers none 0) ∧
    combineReducers trivialReducers none 0 FeatureKey.release ≠ none :=
  ⟨ (reducer_initializes_all_keys Nat Nat trivialReducers
      (fun k a => by simp [trivialReducers]) true 0).1,
    (reducer_initializes_all_keys Nat Nat trivialReducers
      (fun k a => by simp [trivialReducers]) true 0).2 FeatureKey.release ⟩

/-- C8: when some feature transition function mutates its defined input
slice in place, the root reducer raises the mutation error under the
non-production flag and returns normally under the production flag; the
flag argument is read on the call itself, and the two calls that differ
only in the flag differ in outcome. -/
theorem reducer_mutation_guard (σ α : Type) (rs : FeatureKey → FReducer σ α)
    (st : RootState σ) (a : α) (k : FeatureKey) (s : σ)
    (hk : st k = some s) (hm : (rs k).mutates s a = true) :
    reducer false rs (some st) a = Except.error StoreError.mutationError ∧
    reducer true rs (some st) a = Except.ok (combineReducers rs (some st) a) ∧
    reducer false rs (some st) a ≠ reducer true rs (some st) a := by
  have hmut : anyMutation rs (some st) a = true := by
    apply List.any_eq_true.mpr
    refine ⟨ k, featureKeys_complete k, ?_ ⟩
    simp [sliceAt, hk, hm]
  have hdev : reducer false rs (some st) a = Except.error StoreError.mutationError := by
    simp [reducer, developmentReducer, hmut]
  have hprod : reducer true rs (some st) a = Except.ok (combineReducers rs (some st) a) := rfl
  refine ⟨ hdev, hprod, ?_ ⟩
  rw [hdev, hprod]
  simp

/-- C8 (witness): the concrete mutating reducer family on a fully
populated state raises under the development flag and returns normally
under the production flag. -/
theorem reducer_mutation_guard_witness :
    reducer false mutatingReducers (some constState) 0
      = Except.error StoreError.mutationError ∧
    reducer true mutatingReducers (some constState) 0
      = Except.ok (combineReducers mutatingReducers (some constState) 0) :=
  ⟨ (reducer_mutation_guard Nat Nat mutatingReducers constState 0
      FeatureKey.release 0 rfl rfl).1,
    (reducer_mutation_guard Nat Nat mutatingReducers constState 0
      FeatureKey.release 0 rfl rfl).2.1 ⟩

/-- C9: given that every feature transition function is pure (mutates
nothing), the root reducer is deterministic: re-invoking it with the same
state and action yields equal results, the outcome does not depend on the
environment flag, and it is exactly the pure combination of the feature
results, raising nothing. -/
theorem reducer_pure_deterministic (σ α : Type) (rs : FeatureKey → FReducer σ α)
    (hpure : ∀ (k : FeatureKey) (s : σ) (a : α), (rs k).mutates s a = false)
    (p q : Bool) (st : Option (RootState σ)) (a : α) :
    reducer p rs st a = reducer p rs st a ∧
    reducer p rs st a = reducer q rs st a ∧
    reducer p rs st a = Except.ok (combineReducers rs st a) := by
  have hp : ∀ k : FeatureKey,
      (match sliceAt st k with
       | none => false
       | some s => (rs k).mutates s a) = false := by
    intro k
    cases hsk : sliceAt st k with
    | none => rfl
    | some s => exact hpure k s a
  have hmut : anyMutation rs st a = false := by
    simp [anyMutation, featureKeys, hp]
  have hok : ∀ b : Bool, reducer b rs st a = Except.ok (combineReducers rs st a) := by
    intro b
    cases b
    · simp [reducer, developmentReducer, hmut]
    · simp [reducer, productionReducer]
  exact ⟨ rfl, by rw [hok p, hok q], hok p ⟩

/-- C9 (witness): the trivial pure reducer family is deterministic and
flag-independent at a concrete state and action. -/
theorem reducer_pure_deterministic_witness :
    reducer false trivialReducers (some constState) 0
      = reducer false trivialReducers (some constState) 0 ∧
    reducer false trivialReducers (some constState) 0
      = reducer true trivialReducers (some constState) 0 ∧
    reducer false trivialReducers (some constState) 0
      = Except.ok (combineReducers trivialReducers (some constState) 0) :=
  reducer_pure_deterministic Nat Nat trivialReducers (fun _ _ _ => rfl) false true
    (some constState) 0
